import Mathlib

/-!
Verification of the box-breathing-app breathing engine.

The repository ships two implementations of the same engine:
* a Swift `BreathEngine` (src/unnamed/part_001, mirrored by the watchOS
  `ContentView.swift`), backed by the static catalog
  `BreathingPattern.allPresets` (CircleView.swift), and
* a TypeScript `BoxBreathingApp` class (src/src/main.ts and the variants in
  src/unnamed/part_002 … part_004).

Time values (wall-clock timestamps and durations) are embedded as `ℚ`
(seconds for the Swift engine, milliseconds for the web engine, matching the
units each source uses).  Swift `Int` and JS integer arithmetic are embedded
as `ℤ`.  The Swift/JS `%` operator truncates toward zero, which is `Int.tmod`.
Swift `Int(x)` conversion of a `Double` truncates toward zero.  Scheduled
timers (the 60 Hz tick, the idle-fade timer, the 0.1 s `cycleResetTrigger`
clear) are driven by the runtime; the step functions below model one firing
of the corresponding callback.  Calls out to audio/haptic collaborators and
the statistics commit are recorded in event-log fields (`completions`,
`statsCommitted`) instead of performing platform side effects.
-/

/-- Truncation of a rational toward zero, the semantics of Swift
`Int(_: TimeInterval)` used in `updateSessionTimer`. -/
def ratTrunc (q : ℚ) : ℤ :=
  q.num.tdiv (q.den : ℤ)

/-- Element of a list at a signed index.  Swift and JS index arrays with
integers; every reachable access in the engine is in bounds (proved below),
so the out-of-range default `0` is never exercised by reachable states. -/
def listAtZ (l : List ℚ) (i : ℤ) : ℚ :=
  if 0 ≤ i then l.getD i.toNat 0 else 0

/-- Two-digit zero padding, as used by the `"%02d:%02d"` format string. -/
def pad2 (n : ℤ) : String :=
  if 0 ≤ n ∧ n < 10 then "0" ++ toString n else toString n

/-- The `String(format: "%02d:%02d", m, s)` countdown text of timer-only
mode, with `m`/`s` produced by Swift truncating `/ 60` and `% 60`. -/
def formatMMSS (r : ℤ) : String :=
  pad2 (r.tdiv 60) ++ ":" ++ pad2 (r.tmod 60)

/-- `BreathingPattern` (CircleView.swift).  `NSLocalizedString` is embedded
as its key, and `isTimerOnly: Bool? = false` keeps its optional type. -/
structure BreathingPattern where
  id : String
  name : String
  descr : String
  icon : String
  phases : List String
  ratios : List ℚ
  phaseClasses : List String
  isTimerOnly : Option Bool
deriving DecidableEq, Repr

/-- The Swift sources test the optional flag with `== true`. -/
def timerOnly (p : BreathingPattern) : Bool :=
  p.isTimerOnly == some true

namespace BreathingPattern

def boxPattern : BreathingPattern :=
  { id := "box", name := "Box", descr := "Focus & Stress Relief",
    icon := "square",
    phases := ["Inhale", "Hold", "Exhale", "Hold"],
    ratios := [1, 1, 1, 1],
    phaseClasses := ["inhale", "hold", "exhale", "hold"],
    isTimerOnly := some false }

def calmPattern : BreathingPattern :=
  { id := "calm", name := "Calm", descr := "Balance (4-2-4)",
    icon := "leaf.fill",
    phases := ["Inhale", "Hold", "Exhale"],
    ratios := [4, 2, 4],
    phaseClasses := ["inhale", "hold", "exhale"],
    isTimerOnly := some false }

def relaxPattern : BreathingPattern :=
  { id := "relax", name := "Relax", descr := "Sleep Aid (4-7-8)",
    icon := "moon.fill",
    phases := ["Inhale", "Hold", "Exhale"],
    ratios := [4, 7, 8],
    phaseClasses := ["inhale", "hold", "exhale"],
    isTimerOnly := some false }

def simplePattern : BreathingPattern :=
  { id := "simple", name := "Simple", descr := "Natural Breathing",
    icon := "wind",
    phases := ["Inhale", "Exhale"],
    ratios := [1, 1],
    phaseClasses := ["inhale", "exhale"],
    isTimerOnly := some false }

def unwindPattern : BreathingPattern :=
  { id := "unwind", name := "Unwind", descr := "Deep Calm (1:2)",
    icon := "wind.snow",
    phases := ["Inhale", "Exhale"],
    ratios := [1, 2],
    phaseClasses := ["inhale", "exhale"],
    isTimerOnly := some false }

/-- The timer-only "Meditation" preset (id `zen`). -/
def zenPattern : BreathingPattern :=
  { id := "zen", name := "Meditation", descr := "Pure Timer",
    icon := "hourglass",
    phases := ["Meditate"],
    ratios := [60],
    phaseClasses := ["hold"],
    isTimerOnly := some true }

/-- `BreathingPattern.allPresets` (CircleView.swift), in source order. -/
def allPresets : List BreathingPattern :=
  [boxPattern, calmPattern, relaxPattern, simplePattern, unwindPattern,
   zenPattern]

end BreathingPattern

/-- Pattern lookup on engine init / settings reload:
`BreathingPattern.allPresets.first { $0.id == savedPatternId }
  ?? BreathingPattern.allPresets.first!`.
The `none` arm is the `?? … first!` fallback; `boxPattern` is the first
element of the catalog literal. -/
def lookupPattern (savedPatternId : String) : BreathingPattern :=
  match BreathingPattern.allPresets.find? (fun p => p.id == savedPatternId) with
  | some p => p
  | none => BreathingPattern.boxPattern

/-- Mutable state of the Swift `BreathEngine` (part_001 / ContentView.swift).
`statsCommitted` logs the `recordSessionComplete(durationMinutes:)` calls and
`completions` counts the end-of-session collaborator events (gong + end
haptics); both stand in for the platform side effects. -/
structure EngineState where
  isRunning : Bool
  currentPattern : BreathingPattern
  sessionMinutes : ℤ
  duration : ℚ
  isZenMode : Bool
  isMuted : Bool
  isHapticsEnabled : Bool
  zenModeOpacity : ℚ
  currentPhaseIndex : ℤ
  phaseProgress : ℚ
  cycleProgress : ℚ
  countdownText : String
  phaseName : String
  remainingSessionSeconds : ℤ
  cycleResetTrigger : Bool
  phaseStartTime : ℚ
  sessionEndTime : Option ℚ
  isFirstCycle : Bool
  statsCommitted : List ℤ
  completions : ℕ
deriving DecidableEq, Repr

namespace BreathEngine

/-- The computed property `currentPhaseDuration`
(`unitDuration * currentRatio` with `unitDuration = duration / ratios[0]`). -/
def currentPhaseDuration (s : EngineState) : ℚ :=
  (s.duration / listAtZ s.currentPattern.ratios 0) *
    listAtZ s.currentPattern.ratios s.currentPhaseIndex

/-- `nextPhase()`.  The 0.1 s delayed reset of `cycleResetTrigger` is a
separate scheduled callback (not part of this synchronous step). -/
def nextPhase (now : ℚ) (s : EngineState) : EngineState :=
  let len : ℤ := s.currentPattern.phases.length
  let idx := (s.currentPhaseIndex + 1).tmod len
  let s :=
    if idx = 0 then
      if s.isFirstCycle then
        { s with currentPhaseIndex := idx, isFirstCycle := false }
      else
        { s with currentPhaseIndex := idx, cycleResetTrigger := true }
    else
      { s with currentPhaseIndex := idx }
  let s := { s with phaseStartTime := now, phaseProgress := 0 }
  if timerOnly s.currentPattern then s
  else
    { s with phaseName := s.currentPattern.phases.getD s.currentPhaseIndex.toNat "" }

/-- `stop()` (timer invalidation handled by the runtime; note the Swift
engine does not clear `sessionEndTime` here). -/
def stop (s : EngineState) : EngineState :=
  { s with
    isRunning := false
    currentPhaseIndex := 0
    phaseName := s.currentPattern.name ++ " Breathing"
    countdownText := ""
    cycleProgress := 0
    phaseProgress := 0
    remainingSessionSeconds := s.sessionMinutes * 60
    zenModeOpacity := 1 }

/-- `startBreathingCycle()`. -/
def startBreathingCycle (now : ℚ) (s : EngineState) : EngineState :=
  let s := { s with currentPhaseIndex := -1, isFirstCycle := true }
  if timerOnly s.currentPattern then
    { s with isRunning := true, phaseName := s.currentPattern.name }
  else
    nextPhase now s

/-- `start()`: guarded by `guard !isRunning else { return }`. -/
def start (now : ℚ) (s : EngineState) : EngineState :=
  if s.isRunning then s
  else
    startBreathingCycle now
      { s with
        isRunning := true
        sessionEndTime := some (now + s.sessionMinutes * 60) }

/-- `updateSessionTimer()`: on completion the stats are committed for the
configured `sessionMinutes` (never the partial remainder), then `stop()`
runs, then the gong / end-haptic collaborators fire (counted in
`completions`). -/
def updateSessionTimer (now : ℚ) (s : EngineState) : EngineState :=
  match s.sessionEndTime with
  | none => s
  | some endTime =>
    let remaining := ratTrunc (endTime - now)
    if remaining ≤ 0 then
      let s := { s with statsCommitted := s.sessionMinutes :: s.statsCommitted }
      let s := stop s
      { s with completions := s.completions + 1 }
    else
      { s with remainingSessionSeconds := remaining }

/-- `updateCycleProgress(elapsed:unitDuration:)`: the `for i in
0..<currentPhaseIndex` accumulation is the sum over the first
`currentPhaseIndex` ratios. -/
def updateCycleProgress (elapsed unitDuration : ℚ) (s : EngineState) :
    EngineState :=
  let totalCycleUnits := s.currentPattern.ratios.sum
  let totalCycleDuration := totalCycleUnits * unitDuration
  let timePrior :=
    ((s.currentPattern.ratios.take s.currentPhaseIndex.toNat).sum) * unitDuration
  { s with cycleProgress := (timePrior + elapsed) / totalCycleDuration }

/-- `updateLoop()`, one firing of the 60 Hz tick. -/
def updateLoop (now : ℚ) (s : EngineState) : EngineState :=
  if s.isRunning = false then s
  else if timerOnly s.currentPattern then
    let s := updateSessionTimer now s
    let totalSeconds : ℚ := (s.sessionMinutes * 60 : ℤ)
    let s :=
      if 0 < totalSeconds then
        { s with cycleProgress := 1 - (s.remainingSessionSeconds : ℚ) / totalSeconds }
      else s
    { s with
      countdownText := formatMMSS s.remainingSessionSeconds }
  else
    let elapsed := now - s.phaseStartTime
    let unitDuration := s.duration / listAtZ s.currentPattern.ratios 0
    let phaseDuration :=
      unitDuration * listAtZ s.currentPattern.ratios s.currentPhaseIndex
    if phaseDuration ≤ elapsed then nextPhase now s
    else
      let s := { s with
        phaseProgress := elapsed / phaseDuration
        countdownText := toString (max 0 ⌈phaseDuration - elapsed⌉) }
      let s := updateCycleProgress elapsed unitDuration s
      updateSessionTimer now s

/-- `updateSessionTime(by:)` (Swift): clamps `sessionMinutes` to ≥ 1; while
running it shifts `sessionEndTime` and clamps it to `Date()` — i.e. to `now`,
not to `now + 10 s`. -/
def updateSessionTime (minutes : ℤ) (now : ℚ) (s : EngineState) : EngineState :=
  let s := { s with sessionMinutes := max 1 (s.sessionMinutes + minutes) }
  if s.isRunning = false then
    { s with remainingSessionSeconds := s.sessionMinutes * 60 }
  else
    match s.sessionEndTime with
    | none => s
    | some endTime =>
      let endTime := endTime + minutes * 60
      if endTime < now then { s with sessionEndTime := some now }
      else { s with sessionEndTime := some endTime }

/-- `setPattern(_:)`: install the pattern, then full `stop()` if running. -/
def setPattern (p : BreathingPattern) (s : EngineState) : EngineState :=
  let s := { s with currentPattern := p }
  if s.isRunning then stop s else s

/-- `toggle()`. -/
def toggle (now : ℚ) (s : EngineState) : EngineState :=
  if s.isRunning then stop s else start now s

/-- `resetZenModeIdle()` (the re-armed idle timer is runtime-scheduled). -/
def resetZenModeIdle (s : EngineState) : EngineState :=
  { s with zenModeOpacity := 1 }

/-- The duration slider writes the published `duration` var directly. -/
def setDuration (d : ℚ) (s : EngineState) : EngineState :=
  { s with duration := d }

/-- State built by `init()`: pattern restored through `lookupPattern`,
numeric settings from the store, idle UI fields. -/
def initState (savedPatternId : String) (savedMinutes : ℤ) (savedDuration : ℚ)
    (zen muted haptics : Bool) : EngineState :=
  let p := lookupPattern savedPatternId
  { isRunning := false
    currentPattern := p
    sessionMinutes := savedMinutes
    duration := savedDuration
    isZenMode := zen
    isMuted := muted
    isHapticsEnabled := haptics
    zenModeOpacity := 1
    currentPhaseIndex := 0
    phaseProgress := 0
    cycleProgress := 0
    countdownText := ""
    phaseName := p.name ++ " Breathing"
    remainingSessionSeconds := savedMinutes * 60
    cycleResetTrigger := false
    phaseStartTime := 0
    sessionEndTime := none
    isFirstCycle := true
    statsCommitted := []
    completions := 0 }

end BreathEngine

/-- The TypeScript `BreathingPattern` interface (src/src/main.ts); the preset
literals additionally carry a `description` field. -/
structure WebPattern where
  id : String
  name : String
  descr : String
  phases : List String
  phaseClasses : List String
  ratios : List ℚ
deriving DecidableEq, Repr

namespace BoxBreathingApp

def webBox : WebPattern :=
  { id := "box", name := "Box", descr := "Focus & Stress Relief",
    phases := ["Inhale", "Hold", "Exhale", "Hold"],
    phaseClasses := ["inhale", "hold", "exhale", "hold-small"],
    ratios := [1, 1, 1, 1] }

def webRelax : WebPattern :=
  { id := "relax", name := "Relax", descr := "Sleep Aid (4-7-8)",
    phases := ["Inhale", "Hold", "Exhale"],
    phaseClasses := ["inhale", "hold", "exhale"],
    ratios := [4, 7, 8] }

def webCalm : WebPattern :=
  { id := "calm", name := "Calm", descr := "Balance (4-2-4)",
    phases := ["Inhale", "Hold", "Exhale"],
    phaseClasses := ["inhale", "hold", "exhale"],
    ratios := [4, 2, 4] }

def webSimple : WebPattern :=
  { id := "simple", name := "Simple", descr := "Natural Breathing",
    phases := ["Inhale", "Exhale"],
    phaseClasses := ["inhale", "exhale"],
    ratios := [1, 1] }

/-- `config.presets` of main.ts, in source order. -/
def webPresets : List WebPattern :=
  [webBox, webRelax, webCalm, webSimple]

/-- `this.config.presets.find(p => p.id === id)` — the web lookup returns
`undefined` (here `none`) when the id matches no preset; the call sites
apply the non-null assertion `!` to the result. -/
def webFindPreset (id : String) : Option WebPattern :=
  webPresets.find? (fun p => p.id == id)

/-- `AppState` of main.ts.  Times are in milliseconds (`performance.now()`),
durations (`baseDuration`) in seconds, exactly as in the source. -/
structure WebState where
  isRunning : Bool
  isMuted : Bool
  baseDuration : ℚ
  currentPhase : ℤ
  phaseStartTime : ℚ
  sessionMinutes : ℤ
  sessionEndTime : Option ℚ
  isZenModeEnabled : Bool
  currentPresetId : String
deriving DecidableEq, Repr

/-- JS truthiness of `this.state.sessionEndTime` (a `number | null`):
`null` and `0` are falsy. -/
def endTimeTruthy : Option ℚ → Bool
  | none => false
  | some x => x != 0

/-- `adjustSessionTime(deltaMinutes)` (main.ts): add, clamp minutes to ≥ 1;
while running shift `sessionEndTime` by `deltaMinutes * 60 * 1000` ms and
clamp it to at least `now + 10000` ms. -/
def adjustSessionTime (deltaMinutes : ℤ) (now : ℚ) (w : WebState) : WebState :=
  let newMinutes := w.sessionMinutes + deltaMinutes
  let clamped := if newMinutes < 1 then 1 else newMinutes
  let w := { w with sessionMinutes := clamped }
  if w.isRunning ∧ endTimeTruthy w.sessionEndTime then
    match w.sessionEndTime with
    | none => w
    | some endTime =>
      let endTime := endTime + deltaMinutes * 60 * 1000
      if endTime < now + 10000 then { w with sessionEndTime := some (now + 10000) }
      else { w with sessionEndTime := some endTime }
  else w

/-- `changeDuration(delta)` (main.ts / part_004): clamp to `[3, 30]`, early
return when unchanged, and while running rescale `phaseStartTime` so that
`elapsed / oldValue` is preserved against the new base duration. -/
def changeDuration (delta now : ℚ) (w : WebState) : WebState :=
  let oldValue := w.baseDuration
  let newValue := max 3 (min 30 (oldValue + delta))
  if newValue = oldValue then w
  else
    let w := { w with baseDuration := newValue }
    if w.isRunning then
      let elapsed := (now - w.phaseStartTime) / 1000
      let progress := elapsed / oldValue
      { w with phaseStartTime := now - progress * w.baseDuration * 1000 }
    else w

/-- `nextPhase()` (main.ts): the preset lookup result carries the non-null
assertion `!`; an unknown id makes the member accesses throw, modelled as
`none`. -/
def webNextPhase (now : ℚ) (w : WebState) : Option WebState :=
  match webFindPreset w.currentPresetId with
  | none => none
  | some preset =>
    some { w with
      currentPhase := (w.currentPhase + 1).tmod preset.phases.length
      phaseStartTime := now }

/-- `startBreathing()` (main.ts). -/
def startBreathing (now : ℚ) (w : WebState) : Option WebState :=
  webNextPhase now { w with phaseStartTime := now, currentPhase := -1 }

/-- `start()` (main.ts): NO `isRunning` guard — it unconditionally arms a
fresh `sessionEndTime` and restarts the phase cycle. -/
def webStart (now : ℚ) (w : WebState) : Option WebState :=
  startBreathing now
    { w with
      isRunning := true
      sessionEndTime := some (now + w.sessionMinutes * 60 * 1000) }

/-- `setPreset(id)` (main.ts): installs the raw id without validation. -/
def setPreset (id : String) (w : WebState) : WebState :=
  let w := { w with currentPresetId := id }
  if w.isRunning then
    { w with isRunning := false, sessionEndTime := none }
  else w

/-- The per-frame phase duration of main.ts `loop()`:
`unitDuration = baseDuration / preset.ratios[0]`,
`phaseDuration = unitDuration * currentRatio`. -/
def webPhaseDuration (p : WebPattern) (base : ℚ) (k : ℕ) : ℚ :=
  (base / listAtZ p.ratios 0) * p.ratios.getD k 0

end BoxBreathingApp

/-- Statistics state of the watch engine (ContentView.swift): the day-keyed
minutes log, the streak counter and its last-extension date.  Calendar days
are embedded as `ℤ` (the `"yyyy-MM-dd"` key of a day), with
`formatDate(Date().addingTimeInterval(-86400))` as `today - 1`; the absent
`UserDefaults` string default `""` is `none`. -/
structure StatsState where
  log : ℤ → ℤ
  currentStreak : ℤ
  lastStreakDate : Option ℤ
  weeklyMinutes : ℤ

/-- `calculateWeeklyMinutes(from:)`: trailing-7-day sum of the log. -/
def calculateWeeklyMinutes (log : ℤ → ℤ) (today : ℤ) : ℤ :=
  ((List.range 7).map (fun i => log (today - i))).sum

/-- `recordSessionComplete(durationMinutes:)` (ContentView.swift): add the
minutes to today's log entry (`log[today] ?? 0` defaulting), then update the
streak — unchanged if already active today, incremented if last active
yesterday, otherwise reset to 1. -/
def recordSessionComplete (today : ℤ) (durationMinutes : ℤ) (st : StatsState) :
    StatsState :=
  let newLog : ℤ → ℤ := fun d =>
    if d = today then st.log today + durationMinutes else st.log d
  let st := { st with
    log := newLog
    weeklyMinutes := calculateWeeklyMinutes newLog today }
  if st.lastStreakDate = some today then st
  else if st.lastStreakDate = some (today - 1) then
    { st with currentStreak := st.currentStreak + 1, lastStreakDate := some today }
  else
    { st with currentStreak := 1, lastStreakDate := some today }

/-- A fresh statistics store (empty log, no streak). -/
def emptyStats : StatsState :=
  { log := fun _ => 0, currentStreak := 0, lastStreakDate := none,
    weeklyMinutes := 0 }


/-- The phase-duration formula of the engine, as a function of the pattern,
the configured base duration and the phase index. -/
def phaseDurationOf (p : BreathingPattern) (d : ℚ) (k : ℤ) : ℚ :=
  (d / listAtZ p.ratios 0) * listAtZ p.ratios k

lemma currentPhaseDuration_eq (s : EngineState) :
    BreathEngine.currentPhaseDuration s =
      phaseDurationOf s.currentPattern s.duration s.currentPhaseIndex := rfl

/-- A session-timer update that does not hit the completion branch changes
neither the phase fields nor the completion count. -/
lemma updateSessionTimer_keeps_phase (now : ℚ) (s : EngineState)
    (h : ∀ tEnd, s.sessionEndTime = some tEnd → 0 < ratTrunc (tEnd - now)) :
    (BreathEngine.updateSessionTimer now s).phaseProgress = s.phaseProgress ∧
    (BreathEngine.updateSessionTimer now s).currentPhaseIndex =
      s.currentPhaseIndex ∧
    (BreathEngine.updateSessionTimer now s).completions = s.completions ∧
    (BreathEngine.updateSessionTimer now s).cycleProgress = s.cycleProgress := by
  unfold BreathEngine.updateSessionTimer
  cases hend : s.sessionEndTime with
  | none => exact ⟨rfl, rfl, rfl, rfl⟩
  | some tEnd =>
    have hpos := h tEnd hend
    simp only
    rw [if_neg (by omega)]
    exact ⟨rfl, rfl, rfl, rfl⟩

/-- C2: after every `nextPhase()` call, `phaseProgress` is exactly 0 and
`phaseStartTimestamp` is the current time, so no stale 1.0 progress survives
the transition into the same observable step. -/
theorem c2_nextPhase_resets_progress :
    ∀ (now : ℚ) (s : EngineState),
      (BreathEngine.nextPhase now s).phaseProgress = 0 ∧
      (BreathEngine.nextPhase now s).phaseStartTime = now := by
  intro now s
  constructor <;>
    · simp only [BreathEngine.nextPhase]
      repeat' split
      all_goals rfl

/-- C1: on every tick of a running, non-timer-only engine the phase duration
used by the loop is `(baseDuration / ratios[0]) * ratios[currentPhaseIndex]`
(the `currentPhaseDuration` computed property): the tick advances the phase
exactly when the elapsed time reaches that value and otherwise publishes
`phaseProgress = elapsed / phaseDuration`; concretely, ratios `[4,7,8]` with
base 4.0 give phases of 4.0 s, 7.0 s, 8.0 s, and box ratios `[1,1,1,1]` with
base 6.0 give 6.0 s for all four phases. -/
theorem c1_phase_duration_formula :
    (∀ s : EngineState, BreathEngine.currentPhaseDuration s =
      (s.duration / listAtZ s.currentPattern.ratios 0) *
        listAtZ s.currentPattern.ratios s.currentPhaseIndex) ∧
    (∀ (now : ℚ) (s : EngineState), s.isRunning = true →
      timerOnly s.currentPattern = false →
      BreathEngine.currentPhaseDuration s ≤ now - s.phaseStartTime →
      BreathEngine.updateLoop now s = BreathEngine.nextPhase now s) ∧
    (∀ (now : ℚ) (s : EngineState), s.isRunning = true →
      timerOnly s.currentPattern = false →
      now - s.phaseStartTime < BreathEngine.currentPhaseDuration s →
      (∀ tEnd, s.sessionEndTime = some tEnd → 0 < ratTrunc (tEnd - now)) →
      (BreathEngine.updateLoop now s).phaseProgress =
        (now - s.phaseStartTime) / BreathEngine.currentPhaseDuration s ∧
      (BreathEngine.updateLoop now s).currentPhaseIndex =
        s.currentPhaseIndex) ∧
    (phaseDurationOf BreathingPattern.relaxPattern 4 0 = 4 ∧
     phaseDurationOf BreathingPattern.relaxPattern 4 1 = 7 ∧
     phaseDurationOf BreathingPattern.relaxPattern 4 2 = 8) ∧
    (∀ k : ℤ, 0 ≤ k → k < 4 →
      phaseDurationOf BreathingPattern.boxPattern 6 k = 6) := by
  refine ⟨fun s => rfl, ?_, ?_, ?_, ?_⟩
  · intro now s hrun htimer hle
    simp only [BreathEngine.updateLoop, hrun, htimer]
    rw [if_neg (by simp), if_neg (by simp)]
    rw [if_pos]
    exact hle
  · intro now s hrun htimer hlt hsession
    have hlt' := not_le.mpr hlt
    unfold BreathEngine.currentPhaseDuration at hlt'
    cases hend : s.sessionEndTime with
    | none =>
      simp only [BreathEngine.updateLoop, hrun, htimer, hend]
      rw [if_neg (by simp), if_neg (by simp), if_neg hlt']
      simp only [BreathEngine.updateCycleProgress,
        BreathEngine.updateSessionTimer]
      constructor <;> trivial
    | some tEnd =>
      have hpos := hsession tEnd hend
      simp only [BreathEngine.updateLoop, hrun, htimer, hend]
      rw [if_neg (by simp), if_neg (by simp), if_neg hlt']
      simp only [BreathEngine.updateCycleProgress,
        BreathEngine.updateSessionTimer]
      rw [if_neg (by omega)]
      constructor <;> trivial
  · refine ⟨?_, ?_, ?_⟩ <;>
      norm_num [phaseDurationOf, listAtZ, List.getD,
        BreathingPattern.relaxPattern] <;> rfl
  · intro k hk0 hk4
    interval_cases k <;>
      norm_num [phaseDurationOf, listAtZ, List.getD,
        BreathingPattern.boxPattern] <;> rfl

/-- C3: when the derived remaining time reaches zero or below on a running
session, the tick commits statistics for the configured `sessionMinutes`
(never a partial remainder), fires exactly one completion event and calls
`stop()`, leaving `isRunning = false`; completion is idempotent: a tick on a
stopped engine is the identity (so no further completion can fire), and a
second `stop()` is a no-op. -/
theorem c3_session_completion :
    ∀ (now : ℚ) (s : EngineState) (endTime : ℚ),
      (s.isRunning = true → s.sessionEndTime = some endTime →
        ratTrunc (endTime - now) ≤ 0 →
        (BreathEngine.updateSessionTimer now s).statsCommitted =
          s.sessionMinutes :: s.statsCommitted ∧
        (BreathEngine.updateSessionTimer now s).completions =
          s.completions + 1 ∧
        (BreathEngine.updateSessionTimer now s).isRunning = false) ∧
      (s.isRunning = false → BreathEngine.updateLoop now s = s) ∧
      BreathEngine.stop (BreathEngine.stop s) = BreathEngine.stop s := by
  intro now s endTime
  refine ⟨?_, ?_, ?_⟩
  · intro _ hend hdone
    simp only [BreathEngine.updateSessionTimer, hend]
    rw [if_pos hdone]
    exact ⟨rfl, rfl, rfl⟩
  · intro hstop
    unfold BreathEngine.updateLoop
    rw [if_pos hstop]
  · rfl

/-- Witness for C3 at a concrete session: engine started at time 0 with
`sessionMinutes = 1`, ticked at time 61 (one second past the end). -/
theorem c3_session_completion_witness :
    ((BreathEngine.start 0
        (BreathEngine.initState "box" 1 6 false false true)).isRunning = true ∧
     (BreathEngine.start 0
        (BreathEngine.initState "box" 1 6 false false true)).sessionEndTime =
        some 60 ∧
     ratTrunc (60 - 61) ≤ 0) ∧
    (BreathEngine.updateSessionTimer 61
        (BreathEngine.start 0
          (BreathEngine.initState "box" 1 6 false false true))).completions =
      (BreathEngine.start 0
        (BreathEngine.initState "box" 1 6 false false true)).completions + 1 := by
  have h1 : (BreathEngine.start 0
      (BreathEngine.initState "box" 1 6 false false true)).isRunning = true := by
    simp [BreathEngine.start, BreathEngine.initState, BreathEngine.startBreathingCycle,
      BreathEngine.nextPhase, lookupPattern, BreathingPattern.allPresets,
      BreathingPattern.boxPattern, timerOnly]
  have h2 : (BreathEngine.start 0
      (BreathEngine.initState "box" 1 6 false false true)).sessionEndTime =
      some 60 := by
    simp [BreathEngine.start, BreathEngine.initState, BreathEngine.startBreathingCycle,
      BreathEngine.nextPhase, lookupPattern, BreathingPattern.allPresets,
      BreathingPattern.boxPattern, timerOnly]
  have h3 : ratTrunc ((60 : ℚ) - 61) ≤ 0 := by
    norm_num [ratTrunc]
  exact ⟨⟨h1, h2, h3⟩,
    ((c3_session_completion 61 _ 60).1 h1 h2 h3).2.1⟩

/-- A concrete running engine state (box pattern, 15-minute session started
at time 0, first phase entered), used to instantiate hypotheses. -/
def engineRunningEx : EngineState :=
  { isRunning := true
    currentPattern := BreathingPattern.boxPattern
    sessionMinutes := 15
    duration := 6
    isZenMode := false
    isMuted := false
    isHapticsEnabled := true
    zenModeOpacity := 1
    currentPhaseIndex := 0
    phaseProgress := 0
    cycleProgress := 0
    countdownText := ""
    phaseName := "Inhale"
    remainingSessionSeconds := 900
    cycleResetTrigger := false
    phaseStartTime := 0
    sessionEndTime := some 900
    isFirstCycle := false
    statsCommitted := []
    completions := 0 }

/-- Witness for C1 on the concrete running state: at elapsed 10 ≥ 6 the tick
advances the phase, and at elapsed 3 < 6 it publishes `3 / 6`. -/
theorem c1_phase_duration_witness :
    BreathEngine.updateLoop 10 engineRunningEx =
      BreathEngine.nextPhase 10 engineRunningEx ∧
    (BreathEngine.updateLoop 3 engineRunningEx).phaseProgress =
      (3 - engineRunningEx.phaseStartTime) /
        BreathEngine.currentPhaseDuration engineRunningEx ∧
    phaseDurationOf BreathingPattern.boxPattern 6 2 = 6 := by
  refine ⟨?_, ?_, ?_⟩
  · exact c1_phase_duration_formula.2.1 10 engineRunningEx rfl rfl
      (by norm_num [BreathEngine.currentPhaseDuration, engineRunningEx,
        listAtZ, List.getD, BreathingPattern.boxPattern])
  · exact (c1_phase_duration_formula.2.2.1 3 engineRunningEx rfl rfl
      (by norm_num [BreathEngine.currentPhaseDuration, engineRunningEx,
        listAtZ, List.getD, BreathingPattern.boxPattern])
      (by intro t ht
          simp only [engineRunningEx, Option.some.injEq] at ht
          subst ht
          norm_num [ratTrunc])).1
  · exact c1_phase_duration_formula.2.2.2.2 2 (by norm_num) (by norm_num)

/-- C4 counterexample: the claim requires `sessionEndTimestamp` to never end
up earlier than `now + 10 s`, but the Swift `updateSessionTime(by:)` clamps
only to `now`: starting a 15-minute session at time 0 and applying
`delta = -999` at time 60 leaves `sessionEndTime = some 60 = now`, which is
earlier than `now + 10 = 70`. -/
theorem c4_counterexample :
    (BreathEngine.updateSessionTime (-999) 60
        (BreathEngine.start 0
          (BreathEngine.initState "box" 15 6 false false true))).sessionEndTime =
      some 60 ∧
    (60 : ℚ) < 60 + 10 := by
  constructor
  · norm_num [BreathEngine.updateSessionTime, BreathEngine.start,
      BreathEngine.initState, BreathEngine.startBreathingCycle,
      BreathEngine.nextPhase, lookupPattern, BreathingPattern.allPresets,
      BreathingPattern.boxPattern, timerOnly]
  · norm_num

/-- C4 amended: both engines set `sessionMinutes` to
`max(1, sessionMinutes + delta)`; while running, the web engine shifts
`sessionEndTime` by `delta*60*1000` ms clamped to at least `now + 10000` ms,
whereas the Swift engine shifts it by `delta*60` s clamped only to `now`
(so the Swift variant admits less than 10 s of remaining time). -/
theorem c4_adjust_minutes_clamps :
    ∀ (m : ℤ) (now : ℚ) (s : EngineState) (w : BoxBreathingApp.WebState)
      (e1 e2 : ℚ),
      (BreathEngine.updateSessionTime m now s).sessionMinutes =
        max 1 (s.sessionMinutes + m) ∧
      (s.isRunning = true → s.sessionEndTime = some e1 →
        (BreathEngine.updateSessionTime m now s).sessionEndTime =
          some (max now (e1 + m * 60))) ∧
      (BoxBreathingApp.adjustSessionTime m now w).sessionMinutes =
        max 1 (w.sessionMinutes + m) ∧
      (w.isRunning = true → w.sessionEndTime = some e2 → e2 ≠ 0 →
        (BoxBreathingApp.adjustSessionTime m now w).sessionEndTime =
          some (max (now + 10000) (e2 + m * 60 * 1000))) := by
  intro m now s w e1 e2
  refine ⟨?_, ?_, ?_, ?_⟩
  · rcases hE : s.sessionEndTime with _ | e <;>
      simp only [BreathEngine.updateSessionTime, hE] <;>
      split_ifs <;> rfl
  · intro hrun he
    simp only [BreathEngine.updateSessionTime, hrun, he]
    split_ifs <;>
      first
        | exact (False.elim (by assumption))
        | exact congrArg some (max_eq_left (by linarith)).symm
        | exact congrArg some (max_eq_right (by linarith)).symm
  · rcases hE : w.sessionEndTime with _ | e <;>
      simp only [BoxBreathingApp.adjustSessionTime,
        BoxBreathingApp.endTimeTruthy, hE] <;>
      split_ifs <;> simp_all <;> omega
  · intro hrun he hne
    simp only [BoxBreathingApp.adjustSessionTime,
      BoxBreathingApp.endTimeTruthy, hrun, he, bne_iff_ne, ne_eq, hne,
      not_false_eq_true, and_true, true_and, if_true]
    split_ifs <;>
      first
        | exact (False.elim (by assumption))
        | exact congrArg some (max_eq_left (by linarith)).symm
        | exact congrArg some (max_eq_right (by linarith)).symm

/-- A concrete running web state (box pattern, 15-minute session, end at
900000 ms), used to instantiate hypotheses. -/
def webRunningEx : BoxBreathingApp.WebState :=
  { isRunning := true
    isMuted := false
    baseDuration := 6
    currentPhase := 2
    phaseStartTime := 50
    sessionMinutes := 15
    sessionEndTime := some 900000
    isZenModeEnabled := false
    currentPresetId := "box" }

/-- Witness for the amended C4 at `delta = -999`: the web engine clamps the
shifted end to `now + 10000` ms and the Swift engine clamps to `now`. -/
theorem c4_adjust_minutes_witness :
    (BoxBreathingApp.adjustSessionTime (-999) 0 webRunningEx).sessionEndTime =
      some (max ((0 : ℚ) + 10000) (900000 + ((-999 : ℤ) : ℚ) * 60 * 1000)) ∧
    (BreathEngine.updateSessionTime (-999) 60 engineRunningEx).sessionEndTime =
      some (max (60 : ℚ) (900 + ((-999 : ℤ) : ℚ) * 60)) := by
  constructor
  · exact (c4_adjust_minutes_clamps (-999) 0 engineRunningEx webRunningEx
      900 900000).2.2.2 rfl rfl (by norm_num)
  · exact (c4_adjust_minutes_clamps (-999) 60 engineRunningEx webRunningEx
      900 900000).2.1 rfl rfl

/-- C5 counterexample: the claim says a re-entrant `start()` leaves every
engine field unchanged, but the web `start()` has no `isRunning` guard: on a
running state with `sessionEndTime = 300000` ms, `start(100)` re-arms
`sessionEndTime` to `100 + 15*60*1000 = 900100` ms. -/
theorem c5_counterexample :
    webRunningEx.isRunning = true ∧
    webRunningEx.sessionEndTime = some 900000 ∧
    (BoxBreathingApp.webStart 100 webRunningEx).map
        (fun x => x.sessionEndTime) = some (some 900100) ∧
    (900100 : ℚ) ≠ 900000 := by
  refine ⟨rfl, rfl, ?_, by norm_num⟩
  norm_num [BoxBreathingApp.webStart, BoxBreathingApp.startBreathing,
    BoxBreathingApp.webNextPhase, BoxBreathingApp.webFindPreset,
    BoxBreathingApp.webPresets, BoxBreathingApp.webBox, webRunningEx,
    List.find?]

/-- C5 amended: the Swift `start()` is guarded (`guard !isRunning`), so a
re-entrant call leaves the whole engine state unchanged; the web `start()`
has no such guard — whenever it returns a state, that state carries a fresh
`sessionEndTime = now + sessionMinutes*60*1000` and a reset
`phaseStartTime`, so a re-entrant call restarts the session clock instead of
being a no-op. -/
theorem c5_start_reentrancy :
    (∀ (now : ℚ) (s : EngineState), s.isRunning = true →
      BreathEngine.start now s = s) ∧
    (∀ (now : ℚ) (w w2 : BoxBreathingApp.WebState),
      BoxBreathingApp.webStart now w = some w2 →
      w2.sessionEndTime = some (now + w.sessionMinutes * 60 * 1000) ∧
      w2.phaseStartTime = now ∧
      w2.isRunning = true) := by
  constructor
  · intro now s hrun
    unfold BreathEngine.start
    rw [if_pos hrun]
  · intro now w w2 h
    unfold BoxBreathingApp.webStart BoxBreathingApp.startBreathing
      BoxBreathingApp.webNextPhase at h
    dsimp only at h
    cases hf : BoxBreathingApp.webFindPreset w.currentPresetId with
    | none => rw [hf] at h; cases h
    | some preset =>
      rw [hf] at h
      cases h
      exact ⟨rfl, rfl, rfl⟩

/-- Witness for the amended C5: a re-entrant Swift `start()` on the running
example state is the identity, and the web `start()` on the same scenario
re-arms the session end. -/
theorem c5_start_reentrancy_witness :
    BreathEngine.start 5 engineRunningEx = engineRunningEx ∧
    ∀ w2, BoxBreathingApp.webStart 100 webRunningEx = some w2 →
      w2.sessionEndTime = some (100 + (15 : ℤ) * 60 * 1000) := by
  constructor
  · exact c5_start_reentrancy.1 5 engineRunningEx rfl
  · intro w2 h
    exact ((c5_start_reentrancy.2 100 webRunningEx w2 h).1).trans
      (by norm_num [webRunningEx])

/-- The log-accumulation part of `recordSessionComplete`, shared by the
general and the concrete conjuncts of C8. -/
lemma recordSessionComplete_log_today (st : StatsState) (today m : ℤ) :
    (recordSessionComplete today m st).log today = st.log today + m := by
  simp only [recordSessionComplete]
  split_ifs <;> simp

/-- C8: `recordSessionComplete` adds the minutes to today's entry of the
day-keyed log (15 then 10 minutes on the same day accumulate to 25), leaves
other days untouched, and updates the streak by the rule: unchanged when
last active today, incremented when last active yesterday, reset to 1
otherwise. -/
theorem c8_record_session_complete :
    ∀ (st : StatsState) (today m : ℤ),
      (recordSessionComplete today m st).log today = st.log today + m ∧
      (∀ d, d ≠ today → (recordSessionComplete today m st).log d = st.log d) ∧
      (st.lastStreakDate = some today →
        (recordSessionComplete today m st).currentStreak = st.currentStreak) ∧
      (st.lastStreakDate = some (today - 1) →
        (recordSessionComplete today m st).currentStreak =
          st.currentStreak + 1 ∧
        (recordSessionComplete today m st).lastStreakDate = some today) ∧
      (st.lastStreakDate ≠ some today →
        st.lastStreakDate ≠ some (today - 1) →
        (recordSessionComplete today m st).currentStreak = 1) ∧
      (recordSessionComplete today 10
          (recordSessionComplete today 15 emptyStats)).log today = 25 := by
  intro st today m
  refine ⟨?_, ?_, ?_, ?_, ?_, ?_⟩
  · exact recordSessionComplete_log_today st today m
  · intro d hd
    simp only [recordSessionComplete]
    split_ifs <;> simp [hd]
  · intro h
    unfold recordSessionComplete
    rw [if_pos h]
  · intro h
    by_cases h' : st.lastStreakDate = some today
    · rw [h'] at h
      injection h with h
      omega
    · unfold recordSessionComplete
      rw [if_neg h', if_pos h]
      exact ⟨rfl, rfl⟩
  · intro h1 h2
    unfold recordSessionComplete
    rw [if_neg h1, if_neg h2]
  · rw [recordSessionComplete_log_today, recordSessionComplete_log_today]
    norm_num [emptyStats]

/-- Witness for C8: a first-ever session on day 5 resets the streak to 1,
and a session on the consecutive day 6 increments it. -/
theorem c8_record_session_witness :
    (recordSessionComplete 5 15 emptyStats).currentStreak = 1 ∧
    (recordSessionComplete 6 10
        (recordSessionComplete 5 15 emptyStats)).currentStreak =
      (recordSessionComplete 5 15 emptyStats).currentStreak + 1 := by
  constructor
  · exact (c8_record_session_complete emptyStats 5 15).2.2.2.2.1
      (by decide) (by decide)
  · exact ((c8_record_session_complete
      (recordSessionComplete 5 15 emptyStats) 6 10).2.2.2.1 (by decide)).1

/-- C9 counterexample: the web lookup used by `loop()`/`nextPhase()` has no
fallback: an id matching no catalog entry yields no pattern at all (the
source then dereferences `undefined` through the `!` assertion), not the
first cataloged pattern. -/
theorem c9_counterexample :
    BoxBreathingApp.webFindPreset "corrupted" = none ∧
    BoxBreathingApp.webNextPhase 0
      { webRunningEx with currentPresetId := "corrupted" } = none ∧
    (none : Option WebPattern) ≠ some BoxBreathingApp.webBox := by
  exact ⟨rfl, rfl, by simp⟩

/-- C9 amended: the Swift engine's persisted-id lookup always yields a
catalog pattern and falls back to the first cataloged pattern (`box`) when
the id matches no entry; the web engine's preset lookup has no fallback and
yields nothing for an unknown id. -/
theorem c9_lookup_fallback :
    (∀ id : String, lookupPattern id ∈ BreathingPattern.allPresets) ∧
    (∀ id : String,
      BreathingPattern.allPresets.find? (fun p => p.id == id) = none →
      lookupPattern id = BreathingPattern.boxPattern) ∧
    BoxBreathingApp.webFindPreset "corrupted" = none := by
  refine ⟨?_, ?_, rfl⟩
  · intro id
    unfold lookupPattern
    cases h : BreathingPattern.allPresets.find? (fun p => p.id == id) with
    | none => simp [BreathingPattern.allPresets]
    | some p => exact List.mem_of_find?_eq_some h
  · intro id h
    unfold lookupPattern
    rw [h]

/-- Witness for the amended C9 at the unknown id `corrupted`: the Swift
lookup lands on the first cataloged pattern. -/
theorem c9_lookup_fallback_witness :
    lookupPattern "corrupted" = BreathingPattern.boxPattern ∧
    lookupPattern "corrupted" ∈ BreathingPattern.allPresets :=
  ⟨c9_lookup_fallback.2.1 "corrupted" rfl, c9_lookup_fallback.1 "corrupted"⟩

/-- C10: `changeDuration(delta)` clamps the new base duration to `[3, 30]`
and, while running, rescales `phaseStartTime` so that the elapsed fraction
measured against `baseDuration` is preserved across the call; in particular
the published `phaseProgress = elapsed / phaseDuration` is preserved for
phases whose ratio equals `ratios[0]` (where `phaseDuration = baseDuration`),
the preserved quantity being the fraction of `baseDuration` rather than a
fraction of any fixed wall-clock phase length. -/
theorem c10_change_duration :
    ∀ (delta now : ℚ) (w : BoxBreathingApp.WebState),
      (BoxBreathingApp.changeDuration delta now w).baseDuration =
        max 3 (min 30 (w.baseDuration + delta)) ∧
      (w.isRunning = true → w.baseDuration ≠ 0 →
        (now - (BoxBreathingApp.changeDuration delta now w).phaseStartTime) /
            1000 /
            (BoxBreathingApp.changeDuration delta now w).baseDuration =
          (now - w.phaseStartTime) / 1000 / w.baseDuration) ∧
      (∀ (p : WebPattern) (k : ℕ),
        w.isRunning = true → w.baseDuration ≠ 0 →
        p.ratios.getD k 0 = listAtZ p.ratios 0 →
        (now - (BoxBreathingApp.changeDuration delta now w).phaseStartTime) /
            1000 /
            BoxBreathingApp.webPhaseDuration p
              (BoxBreathingApp.changeDuration delta now w).baseDuration k =
          (now - w.phaseStartTime) / 1000 /
            BoxBreathingApp.webPhaseDuration p w.baseDuration k) := by
  intro delta now w
  have hnew : (3 : ℚ) ≤ max 3 (min 30 (w.baseDuration + delta)) := le_max_left _ _
  have hnew0 : max 3 (min 30 (w.baseDuration + delta)) ≠ 0 := by
    intro h0
    rw [h0] at hnew
    norm_num at hnew
  have key : w.isRunning = true → w.baseDuration ≠ 0 →
      (now - (BoxBreathingApp.changeDuration delta now w).phaseStartTime) /
          1000 /
          (BoxBreathingApp.changeDuration delta now w).baseDuration =
        (now - w.phaseStartTime) / 1000 / w.baseDuration := by
    intro hrun hold
    simp only [BoxBreathingApp.changeDuration, hrun]
    split_ifs with h1
    · rfl
    · dsimp only
      field_simp
      ring
  refine ⟨?_, key, ?_⟩
  · simp only [BoxBreathingApp.changeDuration]
    split_ifs with h1 h2
    · exact h1.symm
    · rfl
    · rfl
  · intro p k hrun hold hr
    unfold BoxBreathingApp.webPhaseDuration
    rw [hr]
    by_cases hr0 : listAtZ p.ratios 0 = 0
    · simp [hr0]
    · rw [div_mul_cancel₀ _ hr0, div_mul_cancel₀ _ hr0]
      exact key hrun hold

/-- Witness for C10 on the running example web state with `delta = 0.5`:
the clamp and the elapsed-fraction preservation at concrete values. -/
theorem c10_change_duration_witness :
    (BoxBreathingApp.changeDuration (1/2) 7000 webRunningEx).baseDuration =
      max 3 (min 30 (webRunningEx.baseDuration + 1/2)) ∧
    (7000 -
        (BoxBreathingApp.changeDuration (1/2) 7000
          webRunningEx).phaseStartTime) / 1000 /
        (BoxBreathingApp.changeDuration (1/2) 7000 webRunningEx).baseDuration =
      (7000 - webRunningEx.phaseStartTime) / 1000 / webRunningEx.baseDuration :=
  ⟨(c10_change_duration (1/2) 7000 webRunningEx).1,
   (c10_change_duration (1/2) 7000 webRunningEx).2.1 rfl
     (by norm_num [webRunningEx])⟩

/-- The phase-index invariant of the Swift engine's reachable states. -/
def phaseIndexInv (s : EngineState) : Prop :=
  s.currentPattern ∈ BreathingPattern.allPresets ∧
  (s.isRunning = true → timerOnly s.currentPattern = false →
    0 ≤ s.currentPhaseIndex ∧
    s.currentPhaseIndex < (s.currentPattern.phases.length : ℤ)) ∧
  (s.isRunning = true → timerOnly s.currentPattern = true →
    s.currentPhaseIndex = -1) ∧
  (s.isRunning = false → s.currentPhaseIndex = 0)

/-- Every cataloged pattern has at least one phase. -/
lemma allPresets_phases_pos (p : BreathingPattern)
    (hp : p ∈ BreathingPattern.allPresets) :
    0 < (p.phases.length : ℤ) := by
  simp only [BreathingPattern.allPresets, List.mem_cons,
    List.mem_singleton] at hp
  rcases hp with rfl | rfl | rfl | rfl | rfl | rfl | h
  · decide
  · decide
  · decide
  · decide
  · decide
  · decide
  · simp at h

/-- Persisted-id lookup always lands inside the catalog. -/
lemma lookupPattern_mem (id : String) :
    lookupPattern id ∈ BreathingPattern.allPresets := by
  unfold lookupPattern
  cases h : BreathingPattern.allPresets.find? (fun p => p.id == id) with
  | none => simp [BreathingPattern.allPresets]
  | some p => exact List.mem_of_find?_eq_some h

/-- `nextPhase` keeps the pattern and the running flag and steps the index
by the truncating modulo of the source. -/
lemma nextPhase_fields (now : ℚ) (s : EngineState) :
    (BreathEngine.nextPhase now s).currentPattern = s.currentPattern ∧
    (BreathEngine.nextPhase now s).isRunning = s.isRunning ∧
    (BreathEngine.nextPhase now s).currentPhaseIndex =
      (s.currentPhaseIndex + 1).tmod (s.currentPattern.phases.length : ℤ) := by
  refine ⟨?_, ?_, ?_⟩ <;>
    · simp only [BreathEngine.nextPhase]
      repeat' split
      all_goals rfl

/-- Bounds of the stepped index for a nonempty phase list. -/
lemma nextPhase_index_bounds (now : ℚ) (s : EngineState)
    (hlen : 0 < (s.currentPattern.phases.length : ℤ))
    (hidx : -1 ≤ s.currentPhaseIndex) :
    0 ≤ (BreathEngine.nextPhase now s).currentPhaseIndex ∧
    (BreathEngine.nextPhase now s).currentPhaseIndex <
      (s.currentPattern.phases.length : ℤ) := by
  rw [(nextPhase_fields now s).2.2]
  constructor
  · exact Int.tmod_nonneg _ (by omega)
  · exact Int.tmod_lt_of_pos _ hlen

/-- The invariant only looks at the pattern, the running flag and the index. -/
lemma inv_of_fields {t t' : EngineState} (h : phaseIndexInv t)
    (hp : t'.currentPattern = t.currentPattern)
    (hr : t'.isRunning = t.isRunning)
    (hi : t'.currentPhaseIndex = t.currentPhaseIndex) :
    phaseIndexInv t' := by
  unfold phaseIndexInv at h ⊢
  rw [hp, hr, hi]
  exact h

lemma inv_stop (s : EngineState) (h : phaseIndexInv s) :
    phaseIndexInv (BreathEngine.stop s) := by
  refine ⟨h.1, ?_, ?_, fun _ => rfl⟩ <;> intro hr <;>
    simp [BreathEngine.stop] at hr

lemma inv_updateSessionTimer (now : ℚ) (s : EngineState)
    (h : phaseIndexInv s) :
    phaseIndexInv (BreathEngine.updateSessionTimer now s) := by
  unfold BreathEngine.updateSessionTimer
  cases hend : s.sessionEndTime with
  | none => exact h
  | some e =>
    simp only
    split_ifs with hrem
    · refine ⟨h.1, ?_, ?_, fun _ => rfl⟩ <;> intro hr <;>
        simp [BreathEngine.stop] at hr
    · exact inv_of_fields h rfl rfl rfl

lemma inv_start (now : ℚ) (s : EngineState) (h : phaseIndexInv s) :
    phaseIndexInv (BreathEngine.start now s) := by
  unfold BreathEngine.start
  split_ifs with hrun
  · exact h
  · unfold BreathEngine.startBreathingCycle
    dsimp only
    split_ifs with htimer
    · refine ⟨h.1, ?_, fun _ _ => rfl, ?_⟩
      · intro _ ht
        rw [ht] at htimer
        exact absurd htimer (by simp)
      · intro hr
        simp at hr
    · have hlen := allPresets_phases_pos _ h.1
      have hb := nextPhase_index_bounds now
        { s with
          isRunning := true
          sessionEndTime := some (now + s.sessionMinutes * 60)
          currentPhaseIndex := -1
          isFirstCycle := true } hlen (by norm_num)
      refine ⟨?_, ?_, ?_, ?_⟩
      · rw [(nextPhase_fields now _).1]
        exact h.1
      · intro _ _
        rw [(nextPhase_fields now _).1]
        exact hb
      · intro _ ht
        rw [(nextPhase_fields now _).1] at ht
        rw [ht] at htimer
        exact absurd htimer (by simp)
      · intro hr
        rw [(nextPhase_fields now _).2.1] at hr
        simp at hr

lemma inv_updateLoop (now : ℚ) (s : EngineState) (h : phaseIndexInv s) :
    phaseIndexInv (BreathEngine.updateLoop now s) := by
  unfold BreathEngine.updateLoop
  by_cases hrun : s.isRunning = false
  · rw [if_pos hrun]
    exact h
  · rw [if_neg hrun]
    have hrun' : s.isRunning = true := by
      revert hrun
      cases s.isRunning <;> simp
    by_cases htimer : timerOnly s.currentPattern = true
    · rw [if_pos htimer]
      have h1 := inv_updateSessionTimer now s h
      dsimp only
      split_ifs with htot <;> exact inv_of_fields h1 rfl rfl rfl
    · rw [if_neg htimer]
      have htimer' : timerOnly s.currentPattern = false := by
        revert htimer
        cases timerOnly s.currentPattern <;> simp
      have hbounds := h.2.1 hrun' htimer'
      dsimp only
      split_ifs with hadv
      · have hlen := allPresets_phases_pos _ h.1
        have hb := nextPhase_index_bounds now s hlen (by omega)
        refine ⟨?_, ?_, ?_, ?_⟩
        · rw [(nextPhase_fields now s).1]
          exact h.1
        · intro _ _
          rw [(nextPhase_fields now s).1]
          exact hb
        · intro _ ht
          rw [(nextPhase_fields now s).1] at ht
          rw [ht] at htimer'
          exact absurd htimer' (by simp)
        · intro hr
          rw [(nextPhase_fields now s).2.1] at hr
          rw [hr] at hrun'
          exact absurd hrun' (by simp)
      · exact inv_updateSessionTimer now _ (inv_of_fields h rfl rfl rfl)

lemma inv_updateSessionTime (m : ℤ) (now : ℚ) (s : EngineState)
    (h : phaseIndexInv s) :
    phaseIndexInv (BreathEngine.updateSessionTime m now s) := by
  unfold BreathEngine.updateSessionTime
  dsimp only
  split_ifs with h1
  · exact inv_of_fields h rfl rfl rfl
  · cases hend : s.sessionEndTime with
    | none => exact inv_of_fields h rfl rfl rfl
    | some e =>
      dsimp only
      split_ifs with h2 <;> exact inv_of_fields h rfl rfl rfl

lemma inv_setPattern (p : BreathingPattern) (s : EngineState)
    (hp : p ∈ BreathingPattern.allPresets) (h : phaseIndexInv s) :
    phaseIndexInv (BreathEngine.setPattern p s) := by
  unfold BreathEngine.setPattern
  dsimp only
  split_ifs with hrun
  · refine ⟨hp, ?_, ?_, fun _ => rfl⟩ <;> intro hr <;>
      simp [BreathEngine.stop] at hr
  · have hfalse : s.isRunning = false := by
      revert hrun
      cases s.isRunning <;> simp
    have hidx := h.2.2.2 hfalse
    refine ⟨hp, ?_, ?_, fun _ => hidx⟩ <;> intro hr <;>
      exact absurd (show s.isRunning = true from hr) (by simp [hfalse])

lemma inv_toggle (now : ℚ) (s : EngineState) (h : phaseIndexInv s) :
    phaseIndexInv (BreathEngine.toggle now s) := by
  unfold BreathEngine.toggle
  split_ifs with hrun
  · exact inv_stop s h
  · exact inv_start now s h

lemma inv_initState (id : String) (m : ℤ) (d : ℚ) (z mu ha : Bool) :
    phaseIndexInv (BreathEngine.initState id m d z mu ha) := by
  refine ⟨lookupPattern_mem id, ?_, ?_, fun _ => rfl⟩ <;> intro hr <;>
    simp [BreathEngine.initState] at hr

/-- States reachable through the engine's public operations from a freshly
initialised engine (patterns installed via `setPattern` come from the
catalog, as in the UI). -/
inductive Reachable : EngineState → Prop where
  | init (id : String) (m : ℤ) (d : ℚ) (z mu ha : Bool) :
      Reachable (BreathEngine.initState id m d z mu ha)
  | start {s : EngineState} (now : ℚ) :
      Reachable s → Reachable (BreathEngine.start now s)
  | stop {s : EngineState} :
      Reachable s → Reachable (BreathEngine.stop s)
  | toggle {s : EngineState} (now : ℚ) :
      Reachable s → Reachable (BreathEngine.toggle now s)
  | tick {s : EngineState} (now : ℚ) :
      Reachable s → Reachable (BreathEngine.updateLoop now s)
  | setPattern {s : EngineState} (p : BreathingPattern)
      (hp : p ∈ BreathingPattern.allPresets) :
      Reachable s → Reachable (BreathEngine.setPattern p s)
  | adjustMinutes {s : EngineState} (m : ℤ) (now : ℚ) :
      Reachable s → Reachable (BreathEngine.updateSessionTime m now s)
  | setDuration {s : EngineState} (d : ℚ) :
      Reachable s → Reachable (BreathEngine.setDuration d s)
  | zenIdle {s : EngineState} :
      Reachable s → Reachable (BreathEngine.resetZenModeIdle s)

/-- The invariant holds in every reachable state. -/
lemma inv_reachable (s : EngineState) (h : Reachable s) : phaseIndexInv s := by
  induction h with
  | init id m d z mu ha => exact inv_initState id m d z mu ha
  | start now _ ih => exact inv_start now _ ih
  | stop _ ih => exact inv_stop _ ih
  | toggle now _ ih => exact inv_toggle now _ ih
  | tick now _ ih => exact inv_updateLoop now _ ih
  | setPattern p hp _ ih => exact inv_setPattern p _ hp ih
  | adjustMinutes m now _ ih => exact inv_updateSessionTime m now _ ih
  | setDuration d _ ih => exact inv_of_fields ih rfl rfl rfl
  | zenIdle _ ih => exact inv_of_fields ih rfl rfl rfl

/-- C6 amended: in every reachable running state of a non-timer-only
pattern, `0 ≤ currentPhaseIndex < currentPattern.phases.length` — the
invariant is preserved by init, start, stop, toggle, tick, setPattern,
adjustSessionMinutes, setDuration and resetZenModeIdle; for a timer-only
pattern, however, the running engine holds the `-1` sentinel (the initial
phase advance never happens), so the bound does not extend to timer-only
patterns. -/
theorem c6_phase_index_invariant :
    ∀ s : EngineState, Reachable s →
      (s.isRunning = true → timerOnly s.currentPattern = false →
        0 ≤ s.currentPhaseIndex ∧
        s.currentPhaseIndex < (s.currentPattern.phases.length : ℤ)) ∧
      (s.isRunning = true → timerOnly s.currentPattern = true →
        s.currentPhaseIndex = -1) := by
  intro s h
  have hinv := inv_reachable s h
  exact ⟨hinv.2.1, hinv.2.2.1⟩

/-- C6 counterexample: starting the timer-only "Meditation" (`zen`) pattern
yields a reachable running state whose `currentPhaseIndex` is the `-1`
sentinel — outside `[0, phases.length)` — and the next tick (1 s into the
15-minute session) keeps it there, refuting the claimed bound for timer-only
patterns. -/
theorem c6_counterexample :
    Reachable (BreathEngine.start 0
      (BreathEngine.initState "zen" 15 6 false false true)) ∧
    (BreathEngine.start 0
      (BreathEngine.initState "zen" 15 6 false false true)).isRunning = true ∧
    timerOnly (BreathEngine.start 0
      (BreathEngine.initState "zen" 15 6 false false true)).currentPattern =
      true ∧
    (BreathEngine.start 0
      (BreathEngine.initState "zen" 15 6 false false true)).currentPhaseIndex =
      -1 ∧
    ¬(0 ≤ (BreathEngine.start 0
        (BreathEngine.initState "zen" 15 6 false false true)).currentPhaseIndex) ∧
    (BreathEngine.updateLoop 1 (BreathEngine.start 0
      (BreathEngine.initState "zen" 15 6 false false true))).currentPhaseIndex =
      -1 := by
  refine ⟨Reachable.start 0 (Reachable.init "zen" 15 6 false false true),
    ?_, ?_, ?_, ?_, ?_⟩
  · rfl
  · rfl
  · rfl
  · decide
  · have hz : lookupPattern "zen" = BreathingPattern.zenPattern := rfl
    norm_num [BreathEngine.updateLoop, BreathEngine.updateSessionTimer,
      BreathEngine.start, BreathEngine.initState,
      BreathEngine.startBreathingCycle, hz, BreathingPattern.zenPattern,
      timerOnly, ratTrunc]

/-- Witness for the amended C6: the state right after starting the `relax`
pattern is reachable, running and non-timer-only, and its phase index obeys
the bound. -/
theorem c6_phase_index_witness :
    0 ≤ (BreathEngine.start 0
      (BreathEngine.initState "relax" 15 4 false false true)).currentPhaseIndex ∧
    (BreathEngine.start 0
      (BreathEngine.initState "relax" 15 4 false false true)).currentPhaseIndex <
      ((BreathEngine.start 0
        (BreathEngine.initState "relax" 15 4 false false
          true)).currentPattern.phases.length : ℤ) :=
  (c6_phase_index_invariant _
    (Reachable.start 0 (Reachable.init "relax" 15 4 false false true))).1
    rfl rfl

/-- The cycle-progress value computed by `updateCycleProgress` for pattern
`p`, base duration `d`, phase index `k` and elapsed time `e` in the current
phase: (sum of prior phase durations + elapsed) / total cycle duration. -/
def cycleProgressOf (p : BreathingPattern) (d : ℚ) (k : ℕ) (e : ℚ) : ℚ :=
  ((p.ratios.take k).sum * (d / listAtZ p.ratios 0) + e) /
    (p.ratios.sum * (d / listAtZ p.ratios 0))

lemma listAtZ_natCast (l : List ℚ) (k : ℕ) :
    listAtZ l (k : ℤ) = l.getD k 0 := by
  simp [listAtZ]

lemma listAtZ_zero_pos {l : List ℚ} (hl : ∀ r ∈ l, 0 < r) (hne : l ≠ []) :
    0 < listAtZ l 0 := by
  cases l with
  | nil => exact absurd rfl hne
  | cons a t => exact hl a (List.mem_cons_self a t)

lemma totalCycle_pos {p : BreathingPattern} {d : ℚ}
    (hr : ∀ r ∈ p.ratios, 0 < r) (hd : 0 < d) (hne : p.ratios ≠ []) :
    0 < p.ratios.sum * (d / listAtZ p.ratios 0) :=
  mul_pos (List.sum_pos _ hr hne) (div_pos hd (listAtZ_zero_pos hr hne))

lemma take_sum_nonneg {l : List ℚ} (hr : ∀ r ∈ l, 0 < r) (k : ℕ) :
    0 ≤ (l.take k).sum :=
  List.sum_nonneg (fun x hx => (hr x (List.mem_of_mem_take hx)).le)

lemma take_succ_sum_le {l : List ℚ} (hr : ∀ r ∈ l, 0 < r) (k : ℕ)
    (hk : k < l.length) :
    (l.take k).sum + l.getD k 0 ≤ l.sum := by
  rw [List.getD_eq_getElem l 0 hk]
  have h1 := List.sum_take_succ l k hk
  have h2 : l.sum = (l.take (k + 1)).sum + (l.drop (k + 1)).sum := by
    rw [← List.sum_append, List.take_append_drop]
  have h3 : 0 ≤ (l.drop (k + 1)).sum :=
    List.sum_nonneg (fun x hx => (hr x (List.mem_of_mem_drop hx)).le)
  linarith [h1, h2, h3]

/-- C7: within a cycle the tick publishes
`cycleProgress = (sum of prior phase durations + elapsed) / total cycle
duration`; that value stays in `[0,1]`, is monotone in the elapsed time
within a phase, does not decrease across a phase transition (no wrap), and
right after the wrap to phase index 0 it equals `elapsed / total`, hence is
near 0 for small elapsed time. -/
theorem c7_cycle_progress :
    (∀ (now : ℚ) (s : EngineState) (tEnd : ℚ),
      s.isRunning = true → timerOnly s.currentPattern = false →
      now - s.phaseStartTime < BreathEngine.currentPhaseDuration s →
      s.sessionEndTime = some tEnd → 0 < ratTrunc (tEnd - now) →
      (BreathEngine.updateLoop now s).cycleProgress =
        cycleProgressOf s.currentPattern s.duration s.currentPhaseIndex.toNat
          (now - s.phaseStartTime)) ∧
    (∀ (p : BreathingPattern) (d : ℚ) (k : ℕ) (e : ℚ),
      (∀ r ∈ p.ratios, 0 < r) → 0 < d → k < p.ratios.length →
      0 ≤ e → e < phaseDurationOf p d (k : ℤ) →
      0 ≤ cycleProgressOf p d k e ∧ cycleProgressOf p d k e ≤ 1) ∧
    (∀ (p : BreathingPattern) (d : ℚ) (k : ℕ) (e1 e2 : ℚ),
      (∀ r ∈ p.ratios, 0 < r) → 0 < d → p.ratios ≠ [] →
      e1 ≤ e2 → cycleProgressOf p d k e1 ≤ cycleProgressOf p d k e2) ∧
    (∀ (p : BreathingPattern) (d : ℚ) (k : ℕ) (e1 e2 : ℚ),
      (∀ r ∈ p.ratios, 0 < r) → 0 < d → k < p.ratios.length →
      e1 < phaseDurationOf p d (k : ℤ) → 0 ≤ e2 →
      cycleProgressOf p d k e1 ≤ cycleProgressOf p d (k + 1) e2) ∧
    (∀ (p : BreathingPattern) (d : ℚ) (e ε : ℚ),
      (∀ r ∈ p.ratios, 0 < r) → 0 < d → p.ratios ≠ [] →
      cycleProgressOf p d 0 e =
        e / (p.ratios.sum * (d / listAtZ p.ratios 0)) ∧
      (0 < ε → e ≤ ε * (p.ratios.sum * (d / listAtZ p.ratios 0)) →
        cycleProgressOf p d 0 e ≤ ε)) := by
  refine ⟨?_, ?_, ?_, ?_, ?_⟩
  · intro now s tEnd hrun htimer hlt hend hleft
    have hlt' := not_le.mpr hlt
    unfold BreathEngine.currentPhaseDuration at hlt'
    simp only [BreathEngine.updateLoop, hrun, htimer, hend]
    rw [if_neg (by simp), if_neg (by simp), if_neg hlt']
    simp only [BreathEngine.updateCycleProgress,
      BreathEngine.updateSessionTimer]
    rw [if_neg (by omega)]
    rfl
  · intro p d k e hr hd hk he0 helt
    have hne : p.ratios ≠ [] :=
      List.length_pos.mp (lt_of_le_of_lt (Nat.zero_le k) hk)
    have hu : 0 < d / listAtZ p.ratios 0 :=
      div_pos hd (listAtZ_zero_pos hr hne)
    have hT := totalCycle_pos hr hd hne
    have htake := take_sum_nonneg hr k
    constructor
    · exact div_nonneg (by nlinarith) hT.le
    · unfold cycleProgressOf
      rw [div_le_one hT]
      rw [phaseDurationOf, listAtZ_natCast] at helt
      have hsucc := take_succ_sum_le hr k hk
      nlinarith [mul_le_mul_of_nonneg_right hsucc hu.le]
  · intro p d k e1 e2 hr hd hne h12
    have hT := totalCycle_pos hr hd hne
    unfold cycleProgressOf
    exact (div_le_div_iff_of_pos_right hT).mpr (by linarith)
  · intro p d k e1 e2 hr hd hk helt he2
    have hne : p.ratios ≠ [] :=
      List.length_pos.mp (lt_of_le_of_lt (Nat.zero_le k) hk)
    have hu : 0 < d / listAtZ p.ratios 0 :=
      div_pos hd (listAtZ_zero_pos hr hne)
    have hT := totalCycle_pos hr hd hne
    unfold cycleProgressOf
    rw [phaseDurationOf, listAtZ_natCast] at helt
    have hsucc := List.sum_take_succ p.ratios k hk
    have hget : p.ratios[k] = p.ratios.getD k 0 :=
      (List.getD_eq_getElem p.ratios 0 hk).symm
    rw [hget] at hsucc
    have hnum : (List.take k p.ratios).sum * (d / listAtZ p.ratios 0) + e1 ≤
        (List.take (k + 1) p.ratios).sum * (d / listAtZ p.ratios 0) + e2 := by
      rw [hsucc, add_mul]
      nlinarith [helt]
    exact (div_le_div_iff_of_pos_right hT).mpr hnum
  · intro p d e ε hr hd hne
    have hT := totalCycle_pos hr hd hne
    constructor
    · unfold cycleProgressOf
      norm_num
    · intro hε hle
      unfold cycleProgressOf
      rw [List.take_zero, List.sum_nil, zero_mul, zero_add, div_le_iff₀ hT]
      linarith

/-- Witness for C7: the tick at elapsed 3 s of the box example publishes the
prior-sum fraction, and for the 4-7-8 pattern at base 4, phase 1, elapsed
2 s, the value lies in `[0,1]`. -/
theorem c7_cycle_progress_witness :
    (BreathEngine.updateLoop 3 engineRunningEx).cycleProgress =
      cycleProgressOf engineRunningEx.currentPattern engineRunningEx.duration
        engineRunningEx.currentPhaseIndex.toNat
        (3 - engineRunningEx.phaseStartTime) ∧
    (0 ≤ cycleProgressOf BreathingPattern.relaxPattern 4 1 2 ∧
     cycleProgressOf BreathingPattern.relaxPattern 4 1 2 ≤ 1) := by
  constructor
  · exact c7_cycle_progress.1 3 engineRunningEx 900 rfl rfl
      (by norm_num [BreathEngine.currentPhaseDuration, engineRunningEx,
        listAtZ, List.getD, BreathingPattern.boxPattern])
      rfl (by norm_num [ratTrunc])
  · exact c7_cycle_progress.2.1 BreathingPattern.relaxPattern 4 1 2
      (by intro r hr
          simp [BreathingPattern.relaxPattern] at hr
          rcases hr with rfl | rfl | rfl <;> norm_num)
      (by norm_num)
      (by norm_num [BreathingPattern.relaxPattern])
      (by norm_num)
      (by norm_num [phaseDurationOf, listAtZ, List.getD,
        BreathingPattern.relaxPattern])
